import Mathlib

/-!
Shallow embedding of `src/library_management.py`: the circulation-ledger core
(books, members, issue records, and the issue / return / update operations),
followed by theorems checking the specification's claims about it.

Python's module-level dictionaries `books`, `members`, `issues` and the
counter `next_issue_id` become a `LibState` record threaded through the
operations; each operation returns its outcome (success value or the error
kind the printed message corresponds to, using the spec's error vocabulary)
together with the post-state.  Dictionaries are modelled as association lists
with replace-or-append assignment, matching `d[k] = v` semantics.  Naive
`datetime` values are modelled as a calendar-day number plus a time-of-day
tick; `timedelta(days = n)` adds `n` to the day component, and
`(a.date() - b.date()).days` is `a.day - b.day`.
-/

namespace LibraryManagement

/-- Fine per late day (source constant `FINE_PER_DAY = 5`). -/
def FINE_PER_DAY : Int := 5

/-- Block member if outstanding fine reaches this (source `MAX_FINE_LIMIT = 500`). -/
def MAX_FINE_LIMIT : Int := 500

/-- Default issue period in days (source `ISSUE_DAYS = 14`). -/
def ISSUE_DAYS : Int := 14

/-- A naive `datetime`: calendar-day number plus a time-of-day tick count.
`day` is what `.date()` projects out; two datetimes compare lexicographically. -/
structure DateTime where
  day : Int
  tick : Nat
deriving DecidableEq

/-- `dt + timedelta(days = n)`: the time of day is unchanged. -/
def addDays (n : Int) (d : DateTime) : DateTime :=
  { d with day := d.day + n }

/-- The `Book` dataclass. -/
structure Book where
  book_id : String
  title : String
  author : String
  category : String
  total_copies : Int
  available_copies : Int
deriving DecidableEq

/-- The `Member` dataclass, with the source's field defaults. -/
structure Member where
  member_id : String
  name : String
  phone : String
  blocked : Bool := false
  outstanding_fine : Int := 0
  borrowed_books : List String := []
deriving DecidableEq

/-- The `IssueRecord` dataclass, with the source's field defaults. -/
structure IssueRecord where
  issue_id : Nat
  book_id : String
  member_id : String
  issue_date : DateTime
  due_date : DateTime
  return_date : Option DateTime := none
  fine_charged : Int := 0
deriving DecidableEq

/-- `IssueRecord.days_late`: number of late days (0 if not late), at
calendar-date granularity.  `effective_date = self.return_date or on_date`;
`delta_days = (effective_date.date() - self.due_date.date()).days`. -/
def IssueRecord.days_late (r : IssueRecord) (on_date : DateTime) : Int :=
  let effective_date := r.return_date.getD on_date
  let delta_days := effective_date.day - r.due_date.day
  max 0 delta_days

/-- First binding of `key` in an association list (`dict.get`). -/
def alistFind {κ α : Type} [DecidableEq κ] : List (κ × α) → κ → Option α
  | [], _ => none
  | (k, v) :: rest, key => if k = key then some v else alistFind rest key

/-- `d[key] = value`: replace the first binding of `key`, else append one. -/
def alistUpd {κ α : Type} [DecidableEq κ] : List (κ × α) → κ → α → List (κ × α)
  | [], key, value => [(key, value)]
  | (k, v) :: rest, key, value =>
      if k = key then (key, value) :: rest else (k, v) :: alistUpd rest key value

/-- The module-level mutable stores: `books`, `members`, `issues`,
`next_issue_id`. -/
structure LibState where
  books : List (String × Book)
  members : List (String × Member)
  issues : List (Nat × IssueRecord)
  next_issue_id : Nat
deriving DecidableEq

/-- The stores at program start: all empty, `next_issue_id = 1`. -/
def initState : LibState :=
  { books := [], members := [], issues := [], next_issue_id := 1 }

/-- The error kinds the printed failure messages correspond to, named as in
the specification. -/
inductive LibError : Type
  | NotFound
  | DuplicateKey
  | InvalidArgument
  | InvalidOperation
  | MemberBlocked
  | NoAvailability
  | AlreadyReturned
  | DataIntegrity
deriving DecidableEq

/-- `check_and_update_block_status`: block iff the outstanding fine reached
`MAX_FINE_LIMIT`, unblock otherwise (in-place member mutation in the source). -/
def check_and_update_block_status (m : Member) : Member :=
  if m.outstanding_fine ≥ MAX_FINE_LIMIT then { m with blocked := true }
  else { m with blocked := false }

/-- `add_book`: a duplicate id is rejected; the copy count is read through
`input_int(minimum = 1)`, whose refusal of values below 1 is modelled as
`InvalidArgument`; otherwise the book is stored with
`available_copies = total_copies`. -/
def add_book (book_id title author category : String) (total_copies : Int)
    (s : LibState) : Except LibError Unit × LibState :=
  if (alistFind s.books book_id).isSome then (.error .DuplicateKey, s)
  else if total_copies < 1 then (.error .InvalidArgument, s)
  else
    let book : Book :=
      { book_id, title, author, category, total_copies,
        available_copies := total_copies }
    (.ok (), { s with books := alistUpd s.books book_id book })

/-- `register_member`: a duplicate id is rejected; otherwise a member with the
dataclass defaults (not blocked, zero fine, no borrowed books) is stored. -/
def register_member (member_id name phone : String) (s : LibState) :
    Except LibError Unit × LibState :=
  if (alistFind s.members member_id).isSome then (.error .DuplicateKey, s)
  else
    let member : Member := { member_id, name, phone }
    (.ok (), { s with members := alistUpd s.members member_id member })

/-- `update_book`.  A blank field (empty string; `none` for the copy count)
keeps the existing value; `some none` models a copy-count string on which
`int()` raises `ValueError` ("Invalid total copies. Keeping old value.",
modelled as `InvalidArgument`).  Title, author and category are applied before
the copy-count branch runs, and the source's `if new_total < len(book_id):
pass` check is dead code (its body is `pass`), so it is not modelled.
Reducing the total below the issued count prints "Cannot reduce below number
of currently issued copies" (modelled as `InvalidOperation`); otherwise the
total is set and `available_copies` shifted by the same delta.

`apply_text_updates` is the first half of `update_book`: non-blank title,
author and category inputs overwrite the stored fields, in that order, before
the copy-count branch runs. -/
def apply_text_updates (new_title new_author new_category : String)
    (book : Book) : Book :=
  let book := if new_title ≠ "" then { book with title := new_title } else book
  let book := if new_author ≠ "" then { book with author := new_author } else book
  if new_category ≠ "" then { book with category := new_category } else book

/-- The rest of `update_book`; see `apply_text_updates`. -/
def update_book (book_id new_title new_author new_category : String)
    (new_total : Option (Option Int)) (s : LibState) :
    Except LibError Unit × LibState :=
  match alistFind s.books book_id with
  | none => (.error .NotFound, s)
  | some book =>
    let book := apply_text_updates new_title new_author new_category book
    match new_total with
    | none => (.ok (), { s with books := alistUpd s.books book_id book })
    | some none =>
        (.error .InvalidArgument, { s with books := alistUpd s.books book_id book })
    | some (some n) =>
        if n < book.total_copies - book.available_copies then
          (.error .InvalidOperation,
            { s with books := alistUpd s.books book_id book })
        else
          let book :=
            { book with
              total_copies := n,
              available_copies := book.available_copies + (n - book.total_copies) }
          (.ok (), { s with books := alistUpd s.books book_id book })

/-- `issue_book` with the interactive inputs and `datetime.today()` made
explicit.  Book then member are resolved (failures print "Book not found." /
"Member not found.", modelled `NotFound`); the member's block flag is
re-derived in place (this mutation persists even on the failure paths); a
blocked member fails (`MemberBlocked`), then zero availability fails
(`NoAvailability`); otherwise a record with the next id is stored, the
counter incremented, the availability decremented and the book id appended to
the member's borrowed list. -/
def issue_book (book_id member_id : String) (now : DateTime) (s : LibState) :
    Except LibError IssueRecord × LibState :=
  match alistFind s.books book_id with
  | none => (.error .NotFound, s)
  | some book =>
    match alistFind s.members member_id with
    | none => (.error .NotFound, s)
    | some member =>
      let member := check_and_update_block_status member
      let s := { s with members := alistUpd s.members member_id member }
      if member.blocked then (.error .MemberBlocked, s)
      else if book.available_copies ≤ 0 then (.error .NoAvailability, s)
      else
        let issue_date := now
        let due_date := addDays ISSUE_DAYS issue_date
        let record : IssueRecord :=
          { issue_id := s.next_issue_id, book_id, member_id, issue_date, due_date }
        let s := { s with issues := alistUpd s.issues s.next_issue_id record,
                          next_issue_id := s.next_issue_id + 1 }
        let book := { book with available_copies := book.available_copies - 1 }
        let member :=
          { member with borrowed_books := member.borrowed_books ++ [book_id] }
        (.ok record,
          { s with books := alistUpd s.books book_id book,
                   members := alistUpd s.members member_id member })

/-- `return_book` with the issue id and `datetime.today()` made explicit.
An unknown id fails (`NotFound`), an already-set `return_date` fails
(`AlreadyReturned`), a missing book or member fails ("Cannot proceed
safely.", modelled `DataIntegrity`).  Otherwise: set the return date, charge
`days_late * FINE_PER_DAY` on the record, add it to the member's outstanding
fine, re-derive the block flag, increment availability, and remove one
occurrence of the book id from the borrowed list if present.  The charged
fine is returned as the success value. -/
def return_book (issue_id : Nat) (now : DateTime) (s : LibState) :
    Except LibError Int × LibState :=
  match alistFind s.issues issue_id with
  | none => (.error .NotFound, s)
  | some record =>
    if record.return_date.isSome then (.error .AlreadyReturned, s)
    else
      match alistFind s.books record.book_id,
            alistFind s.members record.member_id with
      | some book, some member =>
        let record := { record with return_date := some now }
        let late_days := record.days_late now
        let fine := late_days * FINE_PER_DAY
        let record := { record with fine_charged := fine }
        let member :=
          { member with outstanding_fine := member.outstanding_fine + fine }
        let member := check_and_update_block_status member
        let book := { book with available_copies := book.available_copies + 1 }
        let member :=
          { member with borrowed_books := member.borrowed_books.erase record.book_id }
        (.ok fine,
          { s with issues := alistUpd s.issues issue_id record,
                   books := alistUpd s.books record.book_id book,
                   members := alistUpd s.members record.member_id member })
      | _, _ => (.error .DataIntegrity, s)

/-! ### Association-list and block-status helper lemmas -/

theorem alistFind_alistUpd_self {κ α : Type} [DecidableEq κ]
    (l : List (κ × α)) (k : κ) (v : α) :
    alistFind (alistUpd l k v) k = some v := by
  induction l with
  | nil => simp [alistFind, alistUpd]
  | cons p rest ih =>
    obtain ⟨a, b⟩ := p
    by_cases h : a = k
    · simp [alistUpd, alistFind, h]
    · simp [alistUpd, alistFind, h, ih]

theorem alistUpd_of_forall_ne {κ α : Type} [DecidableEq κ]
    {l : List (κ × α)} {k : κ} (v : α) (h : ∀ p ∈ l, p.1 ≠ k) :
    alistUpd l k v = l ++ [(k, v)] := by
  induction l with
  | nil => simp [alistUpd]
  | cons p rest ih =>
    obtain ⟨a, b⟩ := p
    have ha : a ≠ k := h (a, b) (List.mem_cons_self _ _)
    simp [alistUpd, ha, ih fun q hq => h q (List.mem_cons_of_mem _ hq)]

theorem check_block_of_lt {m : Member}
    (h : m.outstanding_fine < MAX_FINE_LIMIT) :
    check_and_update_block_status m = { m with blocked := false } := by
  unfold check_and_update_block_status
  rw [if_neg (by omega)]

theorem check_block_of_ge {m : Member}
    (h : MAX_FINE_LIMIT ≤ m.outstanding_fine) :
    check_and_update_block_status m = { m with blocked := true } := by
  unfold check_and_update_block_status
  rw [if_pos (by omega)]

theorem check_block_fine (m : Member) :
    (check_and_update_block_status m).outstanding_fine = m.outstanding_fine := by
  unfold check_and_update_block_status
  split <;> rfl

theorem check_block_borrowed (m : Member) :
    (check_and_update_block_status m).borrowed_books = m.borrowed_books := by
  unfold check_and_update_block_status
  split <;> rfl

theorem check_block_blocked_iff (m : Member) :
    (check_and_update_block_status m).blocked = true ↔
      MAX_FINE_LIMIT ≤ m.outstanding_fine := by
  unfold check_and_update_block_status
  split <;> simp_all

/-! ### Concrete fixtures used to instantiate the claim theorems -/

/-- A book with one of two copies issued. -/
def wBook1 : Book :=
  { book_id := "B1", title := "T", author := "A", category := "F",
    total_copies := 2, available_copies := 1 }

/-- A member holding `wBook1`. -/
def wMember1 : Member :=
  { member_id := "M1", name := "N", phone := "P", borrowed_books := ["B1"] }

/-- An already-returned issue record for `wBook1` / `wMember1`. -/
def wRecordReturned : IssueRecord :=
  { issue_id := 1, book_id := "B1", member_id := "M1",
    issue_date := ⟨0, 0⟩, due_date := ⟨14, 0⟩, return_date := some ⟨5, 0⟩ }

/-- A state whose single issue record is already returned. -/
def wStateReturned : LibState :=
  { books := [("B1", wBook1)], members := [("M1", wMember1)],
    issues := [(1, wRecordReturned)], next_issue_id := 2 }

/-- A book with every copy issued. -/
def wBookZero : Book :=
  { book_id := "B0", title := "T", author := "A", category := "F",
    total_copies := 2, available_copies := 0 }

/-- A member whose fine is above the blocking limit. -/
def wMemberFined : Member :=
  { member_id := "MF", name := "N", phone := "P", outstanding_fine := 600 }

/-- A member with no fine. -/
def wMemberClear : Member :=
  { member_id := "MO", name := "N", phone := "P" }

/-- A state exercising the issue failure branches. -/
def wStateFailures : LibState :=
  { books := [("B0", wBookZero)],
    members := [("MF", wMemberFined), ("MO", wMemberClear)],
    issues := [], next_issue_id := 1 }

/-! ### Claim theorems -/

/-- Claim C4: a second return on an issue record whose return date is already
set fails with AlreadyReturned and returns the state completely unchanged:
the record, the book, and every member field are exactly as before. -/
theorem return_book_already_returned_spec
    (s : LibState) (iid : Nat) (now d : DateTime) (record : IssueRecord)
    (hr : alistFind s.issues iid = some record)
    (hd : record.return_date = some d) :
    return_book iid now s = (.error .AlreadyReturned, s) := by
  simp [return_book, hr, hd]

/-- Witness for C4 at a concrete already-returned record. -/
theorem return_book_already_returned_witness :
    return_book 1 ⟨20, 0⟩ wStateReturned = (.error .AlreadyReturned, wStateReturned) :=
  return_book_already_returned_spec wStateReturned 1 ⟨20, 0⟩ ⟨5, 0⟩
    wRecordReturned rfl rfl

/-- Claim C5: issue fails with NotFound when the book or the member is
missing, with MemberBlocked when the re-derived block status is true, and
with NoAvailability when no copy is available, in that order; in each failure
case no record is created, the id counter is untouched, and nothing changes
except the member's re-derived blocked flag. -/
theorem issue_book_failure_spec (s : LibState) (bid mid : String) (now : DateTime) :
    (alistFind s.books bid = none →
      issue_book bid mid now s = (.error .NotFound, s)) ∧
    (∀ book, alistFind s.books bid = some book →
      alistFind s.members mid = none →
      issue_book bid mid now s = (.error .NotFound, s)) ∧
    (∀ book member, alistFind s.books bid = some book →
      alistFind s.members mid = some member →
      MAX_FINE_LIMIT ≤ member.outstanding_fine →
      issue_book bid mid now s = (.error .MemberBlocked,
        { s with members := alistUpd s.members mid { member with blocked := true } })) ∧
    (∀ book member, alistFind s.books bid = some book →
      alistFind s.members mid = some member →
      member.outstanding_fine < MAX_FINE_LIMIT →
      book.available_copies ≤ 0 →
      issue_book bid mid now s = (.error .NoAvailability,
        { s with members := alistUpd s.members mid { member with blocked := false } })) := by
  refine ⟨fun hb => by simp [issue_book, hb], ?_, ?_, ?_⟩
  · intro book hb hm
    simp [issue_book, hb, hm]
  · intro book member hb hm hge
    simp [issue_book, hb, hm, check_block_of_ge hge]
  · intro book member hb hm hlt havail
    simp [issue_book, hb, hm, check_block_of_lt hlt, havail]

/-- Witness for C5 exercising all four failure branches concretely. -/
theorem issue_book_failure_witness :
    issue_book "NOPE" "MO" ⟨0, 0⟩ wStateFailures = (.error .NotFound, wStateFailures) ∧
    issue_book "B0" "NOPE" ⟨0, 0⟩ wStateFailures = (.error .NotFound, wStateFailures) ∧
    issue_book "B0" "MF" ⟨0, 0⟩ wStateFailures = (.error .MemberBlocked,
      { wStateFailures with
        members := alistUpd wStateFailures.members "MF" { wMemberFined with blocked := true } }) ∧
    issue_book "B0" "MO" ⟨0, 0⟩ wStateFailures = (.error .NoAvailability,
      { wStateFailures with
        members := alistUpd wStateFailures.members "MO" { wMemberClear with blocked := false } }) :=
  ⟨(issue_book_failure_spec wStateFailures "NOPE" "MO" ⟨0, 0⟩).1 rfl,
   (issue_book_failure_spec wStateFailures "B0" "NOPE" ⟨0, 0⟩).2.1 wBookZero rfl rfl,
   (issue_book_failure_spec wStateFailures "B0" "MF" ⟨0, 0⟩).2.2.1 wBookZero
     wMemberFined rfl rfl (by decide),
   (issue_book_failure_spec wStateFailures "B0" "MO" ⟨0, 0⟩).2.2.2 wBookZero
     wMemberClear rfl rfl (by decide) (by decide)⟩

/-- A book with a single available copy. -/
def wBookAvail : Book :=
  { book_id := "BS", title := "T", author := "A", category := "F",
    total_copies := 1, available_copies := 1 }

/-- A state with one available book and one clear member, ready for an issue. -/
def wStateIssue : LibState :=
  { books := [("BS", wBookAvail)], members := [("MO", wMemberClear)],
    issues := [], next_issue_id := 1 }

/-- Claim C1: a successful issue creates exactly one new record with id equal
to the counter (which starts at 1 and is incremented, so ids are fresh and
strictly increasing), issue date `now`, due date `now + ISSUE_DAYS`, no
return date; the book's available copies drop by exactly 1 and stay
non-negative; and the book id is appended to the member's borrowed list. -/
theorem issue_book_success_spec
    (s : LibState) (bid mid : String) (now : DateTime) (book : Book) (member : Member)
    (hb : alistFind s.books bid = some book)
    (hm : alistFind s.members mid = some member)
    (hfine : member.outstanding_fine < MAX_FINE_LIMIT)
    (havail : 0 < book.available_copies) :
    ∃ record s', issue_book bid mid now s = (.ok record, s') ∧
      record.issue_id = s.next_issue_id ∧
      record.issue_date = now ∧
      record.due_date = addDays ISSUE_DAYS now ∧
      record.return_date = none ∧
      record.book_id = bid ∧
      record.member_id = mid ∧
      s'.next_issue_id = s.next_issue_id + 1 ∧
      ((∀ p ∈ s.issues, p.1 < s.next_issue_id) →
        s'.issues = s.issues ++ [(s.next_issue_id, record)]) ∧
      alistFind s'.books bid =
        some { book with available_copies := book.available_copies - 1 } ∧
      0 ≤ book.available_copies - 1 ∧
      alistFind s'.members mid =
        some { member with
               blocked := false,
               borrowed_books := member.borrowed_books ++ [bid] } ∧
      initState.next_issue_id = 1 := by
  have hcb := check_block_of_lt hfine
  have hne : ¬ book.available_copies ≤ 0 := by omega
  have heq : issue_book bid mid now s =
      (.ok ({ issue_id := s.next_issue_id, book_id := bid, member_id := mid,
              issue_date := now, due_date := addDays ISSUE_DAYS now } : IssueRecord),
       ({ books := alistUpd s.books bid
            ({ book with available_copies := book.available_copies - 1 }),
          members := alistUpd (alistUpd s.members mid ({ member with blocked := false })) mid
            ({ member with
               blocked := false,
               borrowed_books := member.borrowed_books ++ [bid] }),
          issues := alistUpd s.issues s.next_issue_id
            ({ issue_id := s.next_issue_id, book_id := bid, member_id := mid,
               issue_date := now, due_date := addDays ISSUE_DAYS now } : IssueRecord),
          next_issue_id := s.next_issue_id + 1 } : LibState)) := by
    simp [issue_book, hb, hm, hcb, hne]
  refine ⟨_, _, heq, rfl, rfl, rfl, rfl, rfl, rfl, rfl, ?_, ?_, by omega, ?_, rfl⟩
  · intro hmono
    exact alistUpd_of_forall_ne _ fun p hp => (hmono p hp).ne
  · exact alistFind_alistUpd_self ..
  · exact alistFind_alistUpd_self ..

/-- Witness for C1 at a concrete one-book one-member state. -/
theorem issue_book_success_witness :
    ∃ record s', issue_book "BS" "MO" ⟨0, 0⟩ wStateIssue = (.ok record, s') ∧
      record.issue_id = wStateIssue.next_issue_id ∧
      record.issue_date = ⟨0, 0⟩ ∧
      record.due_date = addDays ISSUE_DAYS ⟨0, 0⟩ ∧
      record.return_date = none ∧
      record.book_id = "BS" ∧
      record.member_id = "MO" ∧
      s'.next_issue_id = wStateIssue.next_issue_id + 1 ∧
      ((∀ p ∈ wStateIssue.issues, p.1 < wStateIssue.next_issue_id) →
        s'.issues = wStateIssue.issues ++ [(wStateIssue.next_issue_id, record)]) ∧
      alistFind s'.books "BS" =
        some { wBookAvail with available_copies := wBookAvail.available_copies - 1 } ∧
      0 ≤ wBookAvail.available_copies - 1 ∧
      alistFind s'.members "MO" =
        some { wMemberClear with
               blocked := false,
               borrowed_books := wMemberClear.borrowed_books ++ ["BS"] } ∧
      initState.next_issue_id = 1 :=
  issue_book_success_spec wStateIssue "BS" "MO" ⟨0, 0⟩ wBookAvail wMemberClear
    rfl rfl (by decide) (by decide)

/-- An active (not yet returned) issue record for `wBook1` / `wMember1`,
issued on day 0 and due on day 14. -/
def wRecordActive : IssueRecord :=
  { issue_id := 1, book_id := "B1", member_id := "M1",
    issue_date := ⟨0, 0⟩, due_date := ⟨14, 0⟩ }

/-- A state whose single issue record is still active. -/
def wStateActive : LibState :=
  { books := [("B1", wBook1)], members := [("M1", wMember1)],
    issues := [(1, wRecordActive)], next_issue_id := 2 }

/-- Claim C2: a successful return charges 0 when the return day is on or
before the due day (calendar-date granularity), and `d * FINE_PER_DAY` when
it is `d > 0` calendar days past the due day; the charged fine is recorded on
the record and added to the member's outstanding fine exactly once. -/
theorem return_book_fine_spec
    (s : LibState) (iid : Nat) (now : DateTime) (record : IssueRecord)
    (book : Book) (member : Member)
    (hr : alistFind s.issues iid = some record)
    (hnr : record.return_date = none)
    (hb : alistFind s.books record.book_id = some book)
    (hm : alistFind s.members record.member_id = some member) :
    ∃ fine s', return_book iid now s = (.ok fine, s') ∧
      (now.day ≤ record.due_date.day → fine = 0) ∧
      (∀ d : Int, 0 < d → now.day - record.due_date.day = d →
        fine = d * FINE_PER_DAY) ∧
      (∃ record', alistFind s'.issues iid = some record' ∧
        record'.return_date = some now ∧ record'.fine_charged = fine) ∧
      (∃ member', alistFind s'.members record.member_id = some member' ∧
        member'.outstanding_fine = member.outstanding_fine + fine) := by
  simp only [return_book, hr, hnr, hb, hm, IssueRecord.days_late, Option.isSome_none,
    Bool.false_eq_true, if_false, Option.getD_some]
  refine ⟨_, _, rfl, ?_, ?_, ⟨_, alistFind_alistUpd_self .., rfl, rfl⟩,
    ⟨_, alistFind_alistUpd_self .., ?_⟩⟩
  · intro h
    have h0 : max 0 (now.day - record.due_date.day) = 0 :=
      max_eq_left (by omega)
    rw [h0, zero_mul]
  · intro d hd hdiff
    have h0 : max 0 (now.day - record.due_date.day) = d := by
      rw [max_eq_right (by omega)]
      exact hdiff
    rw [h0]
  · rw [check_block_fine]

/-- Witness for C2: Scenario A, return on day 20 of a loan due day 14. -/
theorem return_book_fine_witness :
    ∃ fine s', return_book 1 ⟨20, 0⟩ wStateActive = (.ok fine, s') ∧
      ((20 : Int) ≤ wRecordActive.due_date.day → fine = 0) ∧
      (∀ d : Int, 0 < d → (20 : Int) - wRecordActive.due_date.day = d →
        fine = d * FINE_PER_DAY) ∧
      (∃ record', alistFind s'.issues 1 = some record' ∧
        record'.return_date = some ⟨20, 0⟩ ∧ record'.fine_charged = fine) ∧
      (∃ member', alistFind s'.members "M1" = some member' ∧
        member'.outstanding_fine = wMember1.outstanding_fine + fine) :=
  return_book_fine_spec wStateActive 1 ⟨20, 0⟩ wRecordActive wBook1 wMember1
    rfl rfl rfl rfl

/-- Claim C3: the block flag is fully derived.  `check_and_update_block_status`
makes `blocked` hold exactly when the outstanding fine reaches
`MAX_FINE_LIMIT` (unblocking below it) without touching the fine; the stored
member satisfies this law after the fine step of a successful return and
after the defensive recheck at the start of issue (whatever the outcome);
registration creates consistent members; and the book operations never touch
any member, so no other rule sets `blocked`. -/
theorem blocking_law_spec (s : LibState) :
    (∀ m : Member,
      ((check_and_update_block_status m).blocked = true ↔
        MAX_FINE_LIMIT ≤ m.outstanding_fine) ∧
      (check_and_update_block_status m).outstanding_fine = m.outstanding_fine) ∧
    (∀ iid now record book member, alistFind s.issues iid = some record →
      record.return_date = none →
      alistFind s.books record.book_id = some book →
      alistFind s.members record.member_id = some member →
      ∃ member',
        alistFind (return_book iid now s).2.members record.member_id = some member' ∧
        (member'.blocked = true ↔ MAX_FINE_LIMIT ≤ member'.outstanding_fine)) ∧
    (∀ bid mid now book member, alistFind s.books bid = some book →
      alistFind s.members mid = some member →
      ∃ member', alistFind (issue_book bid mid now s).2.members mid = some member' ∧
        (member'.blocked = true ↔ MAX_FINE_LIMIT ≤ member'.outstanding_fine)) ∧
    (∀ mid name phone, alistFind s.members mid = none →
      ∃ member',
        alistFind (register_member mid name phone s).2.members mid = some member' ∧
        member'.blocked = false ∧ member'.outstanding_fine = 0 ∧
        (member'.blocked = true ↔ MAX_FINE_LIMIT ≤ member'.outstanding_fine)) ∧
    (∀ bid t a c n, (add_book bid t a c n s).2.members = s.members) ∧
    (∀ bid t a c nt, (update_book bid t a c nt s).2.members = s.members) := by
  refine ⟨fun m => ⟨check_block_blocked_iff m, check_block_fine m⟩, ?_, ?_, ?_, ?_, ?_⟩
  · intro iid now record book member hr hnr hb hm
    simp only [return_book, hr, hnr, hb, hm, IssueRecord.days_late,
      Option.isSome_none, Bool.false_eq_true, if_false, Option.getD_some]
    refine ⟨_, alistFind_alistUpd_self .., ?_⟩
    rw [check_block_blocked_iff, check_block_fine]
  · intro bid mid now book member hb hm
    by_cases hge : MAX_FINE_LIMIT ≤ member.outstanding_fine
    · simp only [issue_book, hb, hm, check_block_of_ge hge]
      refine ⟨_, alistFind_alistUpd_self .., by simpa using hge⟩
    · have hlt : member.outstanding_fine < MAX_FINE_LIMIT := by omega
      by_cases hav : book.available_copies ≤ 0
      · simp only [issue_book, hb, hm, check_block_of_lt hlt, if_pos hav,
          Bool.false_eq_true, if_false]
        refine ⟨_, alistFind_alistUpd_self .., by simpa using hlt⟩
      · simp only [issue_book, hb, hm, check_block_of_lt hlt, if_neg hav,
          Bool.false_eq_true, if_false]
        refine ⟨_, alistFind_alistUpd_self .., by simpa using hlt⟩
  · intro mid name phone hm
    simp only [register_member, hm, Option.isSome_none, Bool.false_eq_true, if_false]
    exact ⟨_, alistFind_alistUpd_self .., rfl, rfl, by simp [MAX_FINE_LIMIT]⟩
  · intro bid t a c n
    unfold add_book
    split
    · rfl
    · split <;> rfl
  · intro bid t a c nt
    rcases h : alistFind s.books bid with _ | b
    · simp [update_book, h]
    · rcases nt with _ | ⟨_ | n⟩
      · simp [update_book, h]
      · simp [update_book, h]
      · simp only [update_book, h]
        split <;> rfl

/-- Witness for C3, exercising each guarded part at Scenario-B-like inputs:
a return that pushes the fine over the limit, a recheck on a clear member,
and a fresh registration. -/
theorem blocking_law_witness :
    ((check_and_update_block_status wMemberFined).blocked = true ↔
      MAX_FINE_LIMIT ≤ wMemberFined.outstanding_fine) ∧
    (∃ member', alistFind (return_book 1 ⟨20, 0⟩ wStateActive).2.members "M1" =
        some member' ∧
      (member'.blocked = true ↔ MAX_FINE_LIMIT ≤ member'.outstanding_fine)) ∧
    (∃ member', alistFind (issue_book "B0" "MF" ⟨0, 0⟩ wStateFailures).2.members "MF" =
        some member' ∧
      (member'.blocked = true ↔ MAX_FINE_LIMIT ≤ member'.outstanding_fine)) ∧
    (∃ member', alistFind (register_member "MX" "N" "P" wStateFailures).2.members "MX" =
        some member' ∧
      member'.blocked = false ∧ member'.outstanding_fine = 0 ∧
      (member'.blocked = true ↔ MAX_FINE_LIMIT ≤ member'.outstanding_fine)) :=
  ⟨((blocking_law_spec wStateFailures).1 wMemberFined).1,
   (blocking_law_spec wStateActive).2.1 1 ⟨20, 0⟩ wRecordActive wBook1 wMember1
     rfl rfl rfl rfl,
   (blocking_law_spec wStateFailures).2.2.1 "B0" "MF" ⟨0, 0⟩ wBookZero wMemberFined
     rfl rfl,
   (blocking_law_spec wStateFailures).2.2.2.1 "MX" "N" "P" rfl⟩

theorem apply_text_total (t a c : String) (b : Book) :
    (apply_text_updates t a c b).total_copies = b.total_copies := by
  by_cases ht : t ≠ "" <;> by_cases ha : a ≠ "" <;> by_cases hc : c ≠ "" <;>
    simp [apply_text_updates, ht, ha, hc]

theorem apply_text_avail (t a c : String) (b : Book) :
    (apply_text_updates t a c b).available_copies = b.available_copies := by
  by_cases ht : t ≠ "" <;> by_cases ha : a ≠ "" <;> by_cases hc : c ≠ "" <;>
    simp [apply_text_updates, ht, ha, hc]

theorem apply_text_title {t : String} (a c : String) (b : Book) (ht : t ≠ "") :
    (apply_text_updates t a c b).title = t := by
  by_cases ha : a ≠ "" <;> by_cases hc : c ≠ "" <;>
    simp [apply_text_updates, ht, ha, hc]

theorem apply_text_author {a : String} (t c : String) (b : Book) (ha : a ≠ "") :
    (apply_text_updates t a c b).author = a := by
  by_cases ht : t ≠ "" <;> by_cases hc : c ≠ "" <;>
    simp [apply_text_updates, ht, ha, hc]

theorem apply_text_category {c : String} (t a : String) (b : Book) (hc : c ≠ "") :
    (apply_text_updates t a c b).category = c := by
  by_cases ht : t ≠ "" <;> by_cases ha : a ≠ "" <;>
    simp [apply_text_updates, ht, ha, hc]

/-- Scenario D's book: 3 copies of which 2 are issued. -/
def wBookIssued : Book :=
  { book_id := "BD", title := "T", author := "A", category := "F",
    total_copies := 3, available_copies := 1 }

/-- A state holding Scenario D's book. -/
def wStateUpd : LibState :=
  { books := [("BD", wBookIssued)], members := [], issues := [],
    next_issue_id := 1 }

/-- Claim C6: updating a book's total copies to a value strictly below the
issued count (`total_copies - available_copies`) fails with InvalidOperation
and leaves both copy counters unchanged; any value at or above the issued
count is stored, with `available_copies` shifted by the same delta so the
issued count is preserved. -/
theorem update_book_total_spec
    (s : LibState) (bid t a c : String) (n : Int) (book : Book)
    (hb : alistFind s.books bid = some book) :
    (n < book.total_copies - book.available_copies →
      update_book bid t a c (some (some n)) s = (.error .InvalidOperation,
        { s with books := alistUpd s.books bid (apply_text_updates t a c book) }) ∧
      (apply_text_updates t a c book).total_copies = book.total_copies ∧
      (apply_text_updates t a c book).available_copies = book.available_copies) ∧
    (book.total_copies - book.available_copies ≤ n →
      ∃ book', update_book bid t a c (some (some n)) s =
          (.ok (), { s with books := alistUpd s.books bid book' }) ∧
        book'.total_copies = n ∧
        book'.available_copies = book.available_copies + (n - book.total_copies) ∧
        book'.total_copies - book'.available_copies =
          book.total_copies - book.available_copies) := by
  constructor
  · intro hlt
    have hg : n < (apply_text_updates t a c book).total_copies -
        (apply_text_updates t a c book).available_copies := by
      rw [apply_text_total, apply_text_avail]
      exact hlt
    exact ⟨by simp only [update_book, hb, if_pos hg], apply_text_total .., apply_text_avail ..⟩
  · intro hge
    have hg : ¬ n < (apply_text_updates t a c book).total_copies -
        (apply_text_updates t a c book).available_copies := by
      rw [apply_text_total, apply_text_avail]
      omega
    refine ⟨{ apply_text_updates t a c book with
              total_copies := n,
              available_copies := (apply_text_updates t a c book).available_copies +
                (n - (apply_text_updates t a c book).total_copies) },
      by simp only [update_book, hb, if_neg hg], rfl, ?_, ?_⟩
    · simp only [apply_text_avail, apply_text_total]
    · simp only [apply_text_avail, apply_text_total]
      ring

/-- Witness for C6: Scenario D (reducing 3 to 0 with 2 issued is rejected)
and an accepted raise from 3 to 5. -/
theorem update_book_total_witness :
    (update_book "BD" "" "" "" (some (some 0)) wStateUpd = (.error .InvalidOperation,
      { wStateUpd with
        books := alistUpd wStateUpd.books "BD" (apply_text_updates "" "" "" wBookIssued) }) ∧
      (apply_text_updates "" "" "" wBookIssued).total_copies = wBookIssued.total_copies ∧
      (apply_text_updates "" "" "" wBookIssued).available_copies =
        wBookIssued.available_copies) ∧
    (∃ book', update_book "BD" "" "" "" (some (some 5)) wStateUpd =
        (.ok (), { wStateUpd with books := alistUpd wStateUpd.books "BD" book' }) ∧
      book'.total_copies = 5 ∧
      book'.available_copies = wBookIssued.available_copies + (5 - wBookIssued.total_copies) ∧
      book'.total_copies - book'.available_copies =
        wBookIssued.total_copies - wBookIssued.available_copies) :=
  ⟨(update_book_total_spec wStateUpd "BD" "" "" "" 0 wBookIssued rfl).1 (by decide),
   (update_book_total_spec wStateUpd "BD" "" "" "" 5 wBookIssued rfl).2 (by decide)⟩

/-- Claim C10: `update_book` is not atomic across fields: when the new copy
count is rejected (not a valid integer, or below the issued count), non-empty
title, author and category inputs have still been applied to the stored
book. -/
theorem update_book_nonatomic_spec
    (s : LibState) (bid t a c : String) (book : Book)
    (hb : alistFind s.books bid = some book)
    (ht : t ≠ "") (ha : a ≠ "") (hc : c ≠ "") :
    (update_book bid t a c (some none) s = (.error .InvalidArgument,
        { s with books := alistUpd s.books bid (apply_text_updates t a c book) }) ∧
      (apply_text_updates t a c book).title = t ∧
      (apply_text_updates t a c book).author = a ∧
      (apply_text_updates t a c book).category = c ∧
      alistFind (update_book bid t a c (some none) s).2.books bid =
        some (apply_text_updates t a c book)) ∧
    (∀ n : Int, n < book.total_copies - book.available_copies →
      update_book bid t a c (some (some n)) s = (.error .InvalidOperation,
        { s with books := alistUpd s.books bid (apply_text_updates t a c book) }) ∧
      alistFind (update_book bid t a c (some (some n)) s).2.books bid =
        some (apply_text_updates t a c book)) := by
  have hinv : update_book bid t a c (some none) s = (.error .InvalidArgument,
      { s with books := alistUpd s.books bid (apply_text_updates t a c book) }) := by
    simp only [update_book, hb]
  refine ⟨⟨hinv, apply_text_title a c book ht, apply_text_author t c book ha,
    apply_text_category t a book hc, ?_⟩, ?_⟩
  · rw [hinv]
    exact alistFind_alistUpd_self ..
  · intro n hlt
    have hg : n < (apply_text_updates t a c book).total_copies -
        (apply_text_updates t a c book).available_copies := by
      rw [apply_text_total, apply_text_avail]
      exact hlt
    have hop : update_book bid t a c (some (some n)) s = (.error .InvalidOperation,
        { s with books := alistUpd s.books bid (apply_text_updates t a c book) }) := by
      simp only [update_book, hb, if_pos hg]
    refine ⟨hop, ?_⟩
    rw [hop]
    exact alistFind_alistUpd_self ..

/-- Witness for C10: rejected copy counts on Scenario D's book with all three
text fields supplied. -/
theorem update_book_nonatomic_witness :
    (update_book "BD" "T2" "A2" "F2" (some none) wStateUpd = (.error .InvalidArgument,
        { wStateUpd with
          books := alistUpd wStateUpd.books "BD" (apply_text_updates "T2" "A2" "F2" wBookIssued) }) ∧
      (apply_text_updates "T2" "A2" "F2" wBookIssued).title = "T2" ∧
      (apply_text_updates "T2" "A2" "F2" wBookIssued).author = "A2" ∧
      (apply_text_updates "T2" "A2" "F2" wBookIssued).category = "F2" ∧
      alistFind (update_book "BD" "T2" "A2" "F2" (some none) wStateUpd).2.books "BD" =
        some (apply_text_updates "T2" "A2" "F2" wBookIssued)) ∧
    (∀ n : Int, n < wBookIssued.total_copies - wBookIssued.available_copies →
      update_book "BD" "T2" "A2" "F2" (some (some n)) wStateUpd = (.error .InvalidOperation,
        { wStateUpd with
          books := alistUpd wStateUpd.books "BD" (apply_text_updates "T2" "A2" "F2" wBookIssued) }) ∧
      alistFind (update_book "BD" "T2" "A2" "F2" (some (some n)) wStateUpd).2.books "BD" =
        some (apply_text_updates "T2" "A2" "F2" wBookIssued)) :=
  update_book_nonatomic_spec wStateUpd "BD" "T2" "A2" "F2" wBookIssued rfl
    (by decide) (by decide) (by decide)

/-- Claim C7, failing input: a book with one copy, none issued, whose total
is updated to 0.  `update_book` reports success and stores
`total_copies = 0`, `available_copies = 0`, violating the documented
invariant `total_copies ≥ 1` instead of rejecting the non-positive count
with InvalidArgument: the source's only guard there compares against the
issued count (its `if new_total < len(book_id): pass` line is dead code). -/
theorem update_book_zero_total_code_bug :
    (update_book "BS" "" "" "" (some (some 0)) wStateIssue).1 = .ok () ∧
    (alistFind (update_book "BS" "" "" "" (some (some 0)) wStateIssue).2.books "BS").map
      Book.total_copies = some 0 ∧
    (alistFind (update_book "BS" "" "" "" (some (some 0)) wStateIssue).2.books "BS").map
      Book.available_copies = some 0 ∧
    ¬ (1 : Int) ≤ 0 :=
  ⟨rfl, rfl, rfl, by decide⟩

/-- A book with two available copies for the duplicate-issue scenario. -/
def wBookTwo : Book :=
  { book_id := "B2", title := "T", author := "A", category := "F",
    total_copies := 2, available_copies := 2 }

/-- A fresh member for the duplicate-issue scenario. -/
def wMemberTwo : Member :=
  { member_id := "M2", name := "N", phone := "P" }

/-- A state with two copies of one book and one fresh member. -/
def wStateTwoCopies : LibState :=
  { books := [("B2", wBookTwo)], members := [("M2", wMemberTwo)],
    issues := [], next_issue_id := 1 }

/-- Counterexample to claim C8: issuing two copies of the same book to the
same member (legal while copies remain) leaves the book id twice in
`borrowed_books`, so the list is not duplicate-free. -/
theorem borrowed_books_duplicate_counterexample :
    ((alistFind (issue_book "B2" "M2" ⟨0, 0⟩
        (issue_book "B2" "M2" ⟨0, 0⟩ wStateTwoCopies).2).2.members "M2").map
      Member.borrowed_books = some ["B2", "B2"]) ∧
    ¬ (["B2", "B2"] : List String).Nodup := by
  decide

/-- Claim C8 amended: `borrowed_books` is a list carrying one occurrence per
outstanding loan, not a duplicate-free set: a successful issue appends the
book id (so a member holding two copies of the same book lists it twice),
and a successful return removes exactly one occurrence (first occurrence,
tolerating absence). -/
theorem borrowed_books_occurrence_spec (s : LibState) (now : DateTime) :
    (∀ bid mid book member, alistFind s.books bid = some book →
      alistFind s.members mid = some member →
      member.outstanding_fine < MAX_FINE_LIMIT →
      0 < book.available_copies →
      ∃ member', alistFind (issue_book bid mid now s).2.members mid = some member' ∧
        member'.borrowed_books = member.borrowed_books ++ [bid]) ∧
    (∀ iid record book member, alistFind s.issues iid = some record →
      record.return_date = none →
      alistFind s.books record.book_id = some book →
      alistFind s.members record.member_id = some member →
      ∃ member',
        alistFind (return_book iid now s).2.members record.member_id = some member' ∧
        member'.borrowed_books = member.borrowed_books.erase record.book_id) := by
  constructor
  · intro bid mid book member hb hm hlt hav
    have hne : ¬ book.available_copies ≤ 0 := by omega
    simp only [issue_book, hb, hm, check_block_of_lt hlt, Bool.false_eq_true,
      if_false, if_neg hne]
    exact ⟨_, alistFind_alistUpd_self .., rfl⟩
  · intro iid record book member hr hnr hb hm
    simp only [return_book, hr, hnr, hb, hm, IssueRecord.days_late,
      Option.isSome_none, Bool.false_eq_true, if_false, Option.getD_some]
    refine ⟨_, alistFind_alistUpd_self .., ?_⟩
    rw [check_block_borrowed]

/-- Witness for the amended C8: a concrete issue appends and a concrete
return erases one occurrence. -/
theorem borrowed_books_occurrence_witness :
    (∃ member', alistFind (issue_book "BS" "MO" ⟨0, 0⟩ wStateIssue).2.members "MO" =
        some member' ∧
      member'.borrowed_books = wMemberClear.borrowed_books ++ ["BS"]) ∧
    (∃ member', alistFind (return_book 1 ⟨20, 0⟩ wStateActive).2.members "M1" =
        some member' ∧
      member'.borrowed_books = wMember1.borrowed_books.erase "B1") :=
  ⟨(borrowed_books_occurrence_spec wStateIssue ⟨0, 0⟩).1 "BS" "MO" wBookAvail
      wMemberClear rfl rfl (by decide) (by decide),
   (borrowed_books_occurrence_spec wStateActive ⟨20, 0⟩).2 1 wRecordActive wBook1
      wMember1 rfl rfl rfl rfl⟩

/-- A blocked member holding `wBook1`, with an active overdue loan. -/
def wMemberBlocked : Member :=
  { member_id := "MB", name := "N", phone := "P", blocked := true,
    outstanding_fine := 600, borrowed_books := ["B1"] }

/-- An active issue record belonging to the blocked member. -/
def wRecordBlocked : IssueRecord :=
  { issue_id := 1, book_id := "B1", member_id := "MB",
    issue_date := ⟨0, 0⟩, due_date := ⟨14, 0⟩ }

/-- A state in which the blocked member still has a book out. -/
def wStateBlocked : LibState :=
  { books := [("B1", wBook1)], members := [("MB", wMemberBlocked)],
    issues := [(1, wRecordBlocked)], next_issue_id := 2 }

/-- Claim C9: return never fails because of the member's block status.  For
any resolvable active record whose book and member exist, the return
succeeds — nothing about `blocked` is assumed — charging a non-negative fine
that is added to the member's outstanding fine; and every possible outcome of
return is success, NotFound, AlreadyReturned or DataIntegrity. -/
theorem return_book_ignores_block_spec (s : LibState) (iid : Nat) (now : DateTime) :
    (∀ record book member, alistFind s.issues iid = some record →
      record.return_date = none →
      alistFind s.books record.book_id = some book →
      alistFind s.members record.member_id = some member →
      ∃ fine s', return_book iid now s = (.ok fine, s') ∧ 0 ≤ fine ∧
        ∃ member', alistFind s'.members record.member_id = some member' ∧
          member'.outstanding_fine = member.outstanding_fine + fine) ∧
    ((∃ fine, (return_book iid now s).1 = .ok fine) ∨
      (return_book iid now s).1 = .error .NotFound ∨
      (return_book iid now s).1 = .error .AlreadyReturned ∨
      (return_book iid now s).1 = .error .DataIntegrity) := by
  constructor
  · intro record book member hr hnr hb hm
    simp only [return_book, hr, hnr, hb, hm, IssueRecord.days_late,
      Option.isSome_none, Bool.false_eq_true, if_false, Option.getD_some]
    refine ⟨_, _, rfl, ?_, _, alistFind_alistUpd_self .., ?_⟩
    · exact mul_nonneg (le_max_left ..) (by decide)
    · rw [check_block_fine]
  · rcases hr : alistFind s.issues iid with _ | record
    · exact .inr (.inl (by simp [return_book, hr]))
    · rcases hret : record.return_date with _ | d
      · rcases hb : alistFind s.books record.book_id with _ | book
        · refine .inr (.inr (.inr ?_))
          simp [return_book, hr, hret, hb]
        · rcases hm : alistFind s.members record.member_id with _ | member
          · refine .inr (.inr (.inr ?_))
            simp [return_book, hr, hret, hb, hm]
          · exact .inl ⟨({ record with return_date := some now } : IssueRecord).days_late now
                * FINE_PER_DAY,
              by simp [return_book, hr, hret, hb, hm]⟩
      · exact .inr (.inr (.inl (by simp [return_book, hr, hret])))

/-- Witness for C9: a blocked member's return succeeds and raises their fine
further. -/
theorem return_book_ignores_block_witness :
    ∃ fine s', return_book 1 ⟨20, 0⟩ wStateBlocked = (.ok fine, s') ∧ 0 ≤ fine ∧
      ∃ member', alistFind s'.members "MB" = some member' ∧
        member'.outstanding_fine = wMemberBlocked.outstanding_fine + fine :=
  (return_book_ignores_block_spec wStateBlocked 1 ⟨20, 0⟩).1 wRecordBlocked wBook1
    wMemberBlocked rfl rfl rfl rfl

end LibraryManagement
